/-
Verification development for the turn-front client (src/src/App.js): a shallow
embedding of its session, transport, queue and participant logic, with theorems
settling the frozen specification claims.

The embedding has four parts:
* an application-state model (AppState) of the refs and React state used by
  disconnect, stopBroadcast, the startBroadcast body and the peerDisconnected
  handler;
* a participants-map model of the update performed by consumeStream;
* a trace model (QState / stepQ) of the pending-producer queue, the newProducer
  handler and the routerCapabilities handler, with events interleaved at the
  handlers' suspension points;
* an interleaving model (AState / stepA) of concurrent handleNewProducer
  invocations around the consumer-transport creation guard.
-/
import Mathlib

set_option maxHeartbeats 1000000

namespace TurnFront

/-- Media kinds handled by App.js: the audio and the video track of a stream. -/
inductive MKind
  | audio
  | video
deriving DecidableEq, Repr

/-- A track aggregated into a participant stream, standing for one consumer
track object: tid models the object identity of the underlying track, kind its
media kind. -/
structure Track where
  tid : Nat
  kind : MKind
deriving DecidableEq, Repr

/-- A remote participant record as kept in the participants map of App.js
(lines 335-354): the user id, the aggregated media stream, and the producer id
recorded for each media-kind slot. -/
structure Participant where
  userId : Nat
  stream : List Track
  videoProducerId : Option Nat
  audioProducerId : Option Nat
deriving DecidableEq, Repr

/-- MediaStream.addTrack: appends the track unless the very same track object
is already in the stream (the JS method ignores a duplicate of the same
object; distinct track objects of the same kind are both kept). -/
def addTrack (s : List Track) (t : Track) : List Track :=
  if s.any (fun u => u.tid == t.tid) then s else s ++ [t]

/-- Map.get of a JS Map modelled as an association list. -/
def getKey {α : Type} : List (Nat × α) → Nat → Option α
  | [], _ => none
  | p :: rest, k => if p.1 == k then some p.2 else getKey rest k

/-- Map.set of a JS Map: replaces the value of an existing key in place,
appends a new entry otherwise. -/
def setKey {α : Type} : List (Nat × α) → Nat → α → List (Nat × α)
  | [], k, v => [(k, v)]
  | p :: rest, k, v => if p.1 == k then (k, v) :: rest else p :: setKey rest k v

/-- Map.delete of a JS Map: removes the entry of the key. -/
def eraseKey {α : Type} (l : List (Nat × α)) (k : Nat) : List (Nat × α) :=
  l.filter (fun p => p.1 != k)

/-- The participants-map update performed by the success callback of
consumeStream in App.js (lines 335-354): look the participant up or create a
fresh one, add the consumer track to its stream, overwrite the producer-id
slot of the consumed kind, and store the record back. -/
def consumeUpdate (ps : List (Nat × Participant)) (remoteUserId producerId tid : Nat)
    (kind : MKind) : List (Nat × Participant) :=
  let p := (getKey ps remoteUserId).getD
    { userId := remoteUserId, stream := [], videoProducerId := none, audioProducerId := none }
  let p1 := { p with stream := addTrack p.stream { tid := tid, kind := kind } }
  let p2 := match kind with
    | MKind.video => { p1 with videoProducerId := some producerId }
    | MKind.audio => { p1 with audioProducerId := some producerId }
  setKey ps remoteUserId p2

/-- One successfully consumed remote-producer announcement: the remote user,
the announced producer id, the fresh consumer track object, the media kind. -/
structure CAnn where
  uid : Nat
  pid : Nat
  tid : Nat
  kind : MKind
deriving DecidableEq, Repr

/-- Folding a sequence of successfully consumed announcements through
consumeStream's participants-map update. -/
def applyAnnouncements (ps : List (Nat × Participant)) (anns : List CAnn) :
    List (Nat × Participant) :=
  anns.foldl (fun m a => consumeUpdate m a.uid a.pid a.tid a.kind) ps

/-- Number of tracks of one kind in a stream. -/
def countKind (s : List Track) (k : MKind) : Nat :=
  (s.filter (fun t => t.kind == k)).length

/-- Whether every participant of the map holds at most one audio and at most
one video track in its aggregated stream. -/
def atMostOnePerKind (ps : List (Nat × Participant)) : Bool :=
  ps.all fun q =>
    decide (countKind q.2.stream MKind.audio ≤ 1) &&
    decide (countKind q.2.stream MKind.video ≤ 1)

/-- Producer id of the most recent announcement of the given kind for the
given participant. -/
def lastProducerOf (anns : List CAnn) (uid : Nat) (k : MKind) : Option Nat :=
  ((anns.filter (fun a => a.uid == uid && a.kind == k)).getLast?).map (fun a => a.pid)

/-- The announcements addressed to one participant. -/
def annsFor (anns : List CAnn) (uid : Nat) : List CAnn :=
  anns.filter (fun a => a.uid == uid)

/-- Closed form of the participant record that the code builds for a user
after a sequence of successfully consumed announcements: the stream holds the
track of every announcement for that user in arrival order, and each kind slot
holds the most recently announced producer id of that kind. -/
def expectedParticipant (anns : List CAnn) (uid : Nat) : Option Participant :=
  if (annsFor anns uid).isEmpty then none
  else some
    { userId := uid
      stream := (annsFor anns uid).map (fun a => { tid := a.tid, kind := a.kind })
      videoProducerId := lastProducerOf anns uid MKind.video
      audioProducerId := lastProducerOf anns uid MKind.audio }

/-- Claim C4 as the specification states it, for every announcement sequence:
every aggregated stream keeps at most one track per media kind, and each kind
slot carries the most recently announced producer of that kind. -/
def c4Claim : Prop :=
  ∀ anns : List CAnn,
    atMostOnePerKind (applyAnnouncements [] anns) = true ∧
    (∀ uid,
      ((getKey (applyAnnouncements [] anns) uid).map (fun p => p.videoProducerId)).getD none
        = lastProducerOf anns uid MKind.video)

/-- Two video announcements for the same participant from distinct producers:
the concrete input on which the replacement part of C4 fails. -/
def c4CexAnns : List CAnn :=
  [{ uid := 1, pid := 10, tid := 100, kind := MKind.video },
   { uid := 1, pid := 11, tid := 101, kind := MKind.video }]

/-- Concrete input for the C4 witness: the specification's own scenario,
participant 1 announces video 10, audio 11, then a replacement video 12. -/
def c4WitnessAnns : List CAnn :=
  [{ uid := 1, pid := 10, tid := 100, kind := MKind.video },
   { uid := 1, pid := 11, tid := 101, kind := MKind.audio },
   { uid := 1, pid := 12, tid := 102, kind := MKind.video }]

/-- A remote media transport of App.js: the id the server assigned at creation
and whether close() has been called on it. -/
structure Transport where
  tid : Nat
  closed : Bool
deriving DecidableEq, Repr

/-- The local media stream: its identity and whether its tracks were stopped. -/
structure LocalMedia where
  sid : Nat
  stopped : Bool
deriving DecidableEq, Repr

/-- The socket connection: its identity and whether it is still connected. -/
structure Socket where
  sid : Nat
  connected : Bool
deriving DecidableEq, Repr

/-- A newProducer notification payload: producer id, remote user id, kind. -/
structure NPAnn where
  producerId : Nat
  userId : Nat
  kind : MKind
deriving DecidableEq, Repr

/-- The state of the App component: every React state variable and every ref
that the orchestration logic of App.js reads or writes. -/
structure AppState where
  isConnected : Bool
  isBroadcasting : Bool
  connectionInfo : Option Nat
  participants : List (Nat × Participant)
  socket : Option Socket
  device : Option Nat
  producerTransport : Option Transport
  consumerTransport : Option Transport
  producers : List (MKind × Nat)
  consumers : List (Nat × Nat)
  localStream : Option LocalMedia
  pendingProducers : List NPAnn
  creatingConsumerTransport : Bool
deriving DecidableEq, Repr

/-- Transport.close(). -/
def closeTransport (t : Transport) : Transport := { t with closed := true }

/-- Stopping every track of a media stream. -/
def stopTracks (m : LocalMedia) : LocalMedia := { m with stopped := true }

/-- The disconnect function of App.js (lines 80-96): stops the local media
tracks, disconnects the socket and clears the socket ref, resets the connected
and broadcasting flags, clears the connection info and the participants map.
Nothing else changes: neither transport is closed, the producers and consumers
maps are not cleared, device, pending queue and the creating flag keep their
values. -/
def disconnect (s : AppState) : AppState :=
  { s with
    localStream := s.localStream.map stopTracks
    socket := none
    isConnected := false
    isBroadcasting := false
    connectionInfo := none
    participants := [] }

/-- The stopBroadcast function of App.js (lines 360-384): stops the local
media tracks, closes both transports (the refs keep pointing at the closed
handles), disconnects the socket (the ref is kept), clears the producers and
consumers maps and the participants map, and resets the broadcasting flag.
The device ref, the pending-producer queue and the creating flag are not
touched. -/
def stopBroadcast (s : AppState) : AppState :=
  { s with
    localStream := s.localStream.map stopTracks
    producerTransport := s.producerTransport.map closeTransport
    consumerTransport := s.consumerTransport.map closeTransport
    socket := s.socket.map (fun k => { k with connected := false })
    producers := []
    consumers := []
    participants := []
    isBroadcasting := false }

/-- The effects of the startBroadcast function body (App.js lines 98-203) from
entry to its last statement: acquire the local media stream, create the socket
and register its event handlers, then set the broadcasting flag. Device load,
transport creation and producing happen only later, inside the
routerCapabilities handler, which cannot run before this body has returned. -/
def startBroadcastBody (s : AppState) (streamId socketId : Nat) : AppState :=
  { s with
    localStream := some { sid := streamId, stopped := false }
    socket := some { sid := socketId, connected := true }
    isBroadcasting := true }

/-- The state of a session right after a successful connect: connected, not
broadcasting, credentials held, every broadcast-scoped ref at its initial
value. -/
def freshConnected (info : Nat) : AppState :=
  { isConnected := true, isBroadcasting := false, connectionInfo := some info,
    participants := [], socket := none, device := none, producerTransport := none,
    consumerTransport := none, producers := [], consumers := [], localStream := none,
    pendingProducers := [], creatingConsumerTransport := false }

/-- The peerDisconnected handler of App.js (lines 186-193): deletes the user
from the participants map. -/
def peerDisconnected (s : AppState) (uid : Nat) : AppState :=
  { s with participants := eraseKey s.participants uid }

/-- The guard of handleNewProducer (App.js line 162) deciding whether a new
consumer transport is created for an announcement: no consumer transport ref
and no creation in progress. -/
def consumerGuardCreates (s : AppState) : Bool :=
  s.consumerTransport.isNone && !s.creatingConsumerTransport

/-- Claim C6 as the specification states it: from any broadcasting state,
stopBroadcast resets every broadcast-scoped piece of state that the next
session's handlers read to its fresh-Connected value, so that a following
startBroadcast behaves as a single startBroadcast from Connected would. -/
def c6Claim : Prop :=
  ∀ s : AppState, s.isBroadcasting = true →
    ((stopBroadcast s).producers = [] ∧
     (stopBroadcast s).consumers = [] ∧
     (stopBroadcast s).participants = [] ∧
     (stopBroadcast s).device = none ∧
     (stopBroadcast s).producerTransport = none ∧
     (stopBroadcast s).consumerTransport = none ∧
     (stopBroadcast s).pendingProducers = [] ∧
     (stopBroadcast s).creatingConsumerTransport = false)

/-- A broadcasting state with a live consumer transport and a loaded device:
the concrete input refuting C6. -/
def c6CexState : AppState :=
  { freshConnected 0 with
    isBroadcasting := true,
    device := some 3,
    producerTransport := some { tid := 1, closed := false },
    consumerTransport := some { tid := 2, closed := false } }

/-- Claim C7 as the specification states it, read on the state in which the
startBroadcast body leaves a fresh Connected session (the routerCapabilities
handler, registered inside the body, cannot have run before the body ends):
if that state is marked broadcasting, then the capability negotiation side
effects are complete, that is a device exists, the outbound transport exists
and local producers were published. -/
def c7Claim : Prop :=
  ∀ info streamId socketId : Nat,
    (startBroadcastBody (freshConnected info) streamId socketId).isBroadcasting = true →
    ((startBroadcastBody (freshConnected info) streamId socketId).device.isSome = true ∧
     (startBroadcastBody (freshConnected info) streamId socketId).producerTransport.isSome = true ∧
     (startBroadcastBody (freshConnected info) streamId socketId).producers ≠ [])

/-- Claim C8 as the specification states it: disconnect invoked while
broadcasting performs all the effects of stopBroadcast (stops local media,
closes both transports, clears the producer and consumer maps), closes the
signaling channel, clears the credentials, and moves the session to Idle. -/
def c8Claim : Prop :=
  ∀ s : AppState, s.isBroadcasting = true →
    ((disconnect s).localStream = s.localStream.map stopTracks ∧
     (disconnect s).producerTransport = s.producerTransport.map closeTransport ∧
     (disconnect s).consumerTransport = s.consumerTransport.map closeTransport ∧
     (disconnect s).producers = [] ∧
     (disconnect s).consumers = [] ∧
     (disconnect s).participants = [] ∧
     (disconnect s).socket = none ∧
     (disconnect s).connectionInfo = none ∧
     (disconnect s).isConnected = false ∧
     (disconnect s).isBroadcasting = false)

/-- A broadcasting state with open transports and nonempty producer and
consumer maps: the concrete input refuting C8. -/
def c8CexState : AppState :=
  { freshConnected 0 with
    isBroadcasting := true,
    producerTransport := some { tid := 1, closed := false },
    consumerTransport := some { tid := 2, closed := false },
    producers := [(MKind.video, 5), (MKind.audio, 6)],
    consumers := [(7, 9)] }

/-- Program counter of the routerCapabilities handler (App.js lines 132-151):
not yet started; suspended in the device load; suspended in
createProducerTransport; iterating the pending-producer drain loop with the
announcements still to feed; finished. -/
inductive RcPc
  | notStarted
  | loadingDevice
  | creatingProducerTransport
  | draining (rest : List NPAnn)
  | finished
deriving DecidableEq, Repr

/-- State of the queue-and-drain protocol: whether the device ref has been
assigned (the synchronous first statement of the routerCapabilities handler),
the handler's program counter, the pending-producer queue, and the log of
handleNewProducer invocations in order (the flag is true for a live invocation
from the newProducer handler, false for a drained one). -/
structure QState where
  deviceAssigned : Bool
  rcPc : RcPc
  pending : List NPAnn
  handled : List (NPAnn × Bool)
deriving DecidableEq, Repr

/-- Events of the queue model: a newProducer notification arrives (its handler
runs synchronously to its first suspension point), the routerCapabilities
notification arrives, or the routerCapabilities handler resumes from its
current suspension point. -/
inductive QEv
  | arrive (a : NPAnn)
  | rcStart
  | rcStep
deriving DecidableEq, Repr

/-- One step of the queue model, following App.js. An arriving newProducer
event checks the device ref (line 177): unassigned means the announcement is
pushed onto the pending queue, assigned means handleNewProducer is invoked
live at once. The routerCapabilities handler assigns the device ref
synchronously on entry (line 136), then suspends loading it, then suspends in
createProducerTransport, then feeds each pending announcement in order to
handleNewProducer (lines 144-148), then clears the queue (line 149). -/
def stepQ (s : QState) : QEv → QState
  | QEv.arrive a =>
    if s.deviceAssigned then { s with handled := s.handled ++ [(a, true)] }
    else { s with pending := s.pending ++ [a] }
  | QEv.rcStart =>
    match s.rcPc with
    | RcPc.notStarted => { s with deviceAssigned := true, rcPc := RcPc.loadingDevice }
    | _ => s
  | QEv.rcStep =>
    match s.rcPc with
    | RcPc.notStarted => s
    | RcPc.loadingDevice => { s with rcPc := RcPc.creatingProducerTransport }
    | RcPc.creatingProducerTransport =>
      if s.pending.isEmpty then { s with rcPc := RcPc.finished }
      else { s with rcPc := RcPc.draining s.pending }
    | RcPc.draining (a :: rest) =>
      { s with handled := s.handled ++ [(a, false)], rcPc := RcPc.draining rest }
    | RcPc.draining [] => { s with pending := [], rcPc := RcPc.finished }
    | RcPc.finished => s

/-- Initial state of the queue model at socket setup. -/
def initQ : QState :=
  { deviceAssigned := false, rcPc := RcPc.notStarted, pending := [], handled := [] }

/-- Running a trace of queue-model events. -/
def runQ (evs : List QEv) : QState := evs.foldl stepQ initQ

/-- Whether capability negotiation has completed in a state: the device load
has finished (the handler moved past its loading suspension). -/
def negotiationComplete (s : QState) : Bool :=
  match s.rcPc with
  | RcPc.notStarted => false
  | RcPc.loadingDevice => false
  | _ => true

/-- The announcements drained from the queue, in handling order. -/
def drainedOf (h : List (NPAnn × Bool)) : List NPAnn :=
  (h.filter (fun e => !e.2)).map (fun e => e.1)

/-- The announcements handled live, in handling order. -/
def liveOf (h : List (NPAnn × Bool)) : List NPAnn :=
  (h.filter (fun e => e.2)).map (fun e => e.1)

/-- Whether along a trace every announcement arriving before negotiation
completed was appended to the pending queue. -/
def bufferedBeforeCompleteAux : QState → List QEv → Bool
  | _, [] => true
  | s, e :: rest =>
    (match e with
     | QEv.arrive a =>
       negotiationComplete s || ((stepQ s e).pending == s.pending ++ [a])
     | _ => true) && bufferedBeforeCompleteAux (stepQ s e) rest

/-- bufferedBeforeCompleteAux started from the initial state. -/
def bufferedBeforeComplete (evs : List QEv) : Bool :=
  bufferedBeforeCompleteAux initQ evs

/-- Whether in an invocation log every drained announcement was handled before
every live one. -/
def drainedPrecedeLive (h : List (NPAnn × Bool)) : Bool :=
  (h.dropWhile (fun e => !e.2)).all (fun e => e.2)

/-- Claim C3 as the specification states it, over every trace of the queue
model: every announcement arriving before capability negotiation completes is
buffered, and on a trace whose drain has finished, every buffered announcement
was handled before any live one. -/
def c3Claim : Prop :=
  ∀ evs : List QEv,
    bufferedBeforeComplete evs = true ∧
    ((runQ evs).rcPc = RcPc.finished → drainedPrecedeLive (runQ evs).handled = true)

/-- An announcement buffered before the routerCapabilities handler starts. -/
def qAnn0 : NPAnn := { producerId := 10, userId := 2, kind := MKind.video }

/-- An announcement arriving while the device is still loading. -/
def qAnn1 : NPAnn := { producerId := 11, userId := 3, kind := MKind.audio }

/-- The concrete trace refuting C3: announcement qAnn0 arrives and is
buffered, the routerCapabilities handler starts and suspends in the device
load, announcement qAnn1 arrives during the load — negotiation has not
completed, yet it is handled live at once — and the handler then finishes
loading, creates the transport and drains qAnn0. -/
def c3CexTrace : List QEv :=
  [QEv.arrive qAnn0, QEv.rcStart, QEv.arrive qAnn1,
   QEv.rcStep, QEv.rcStep, QEv.rcStep, QEv.rcStep]

/-- The announcements of a trace, in arrival order. -/
def arrivalsOf : List QEv → List NPAnn
  | [] => []
  | QEv.arrive a :: t => a :: arrivalsOf t
  | _ :: t => arrivalsOf t

/-- The announcements arriving before the routerCapabilities handler starts
(these are the ones the code buffers). -/
def preArrivals : List QEv → List NPAnn
  | [] => []
  | QEv.arrive a :: t => a :: preArrivals t
  | QEv.rcStart :: _ => []
  | QEv.rcStep :: t => preArrivals t

/-- The announcements arriving after the routerCapabilities handler starts
(these are the ones the code handles live). -/
def postArrivals : List QEv → List NPAnn
  | [] => []
  | QEv.rcStart :: t => arrivalsOf t
  | _ :: t => postArrivals t

/-- Concrete trace for the C3 and C10 witnesses: one buffered announcement,
the handler runs to completion, then a live announcement arrives. -/
def qWitnessTrace : List QEv :=
  [QEv.arrive qAnn0, QEv.rcStart, QEv.rcStep, QEv.rcStep, QEv.rcStep, QEv.rcStep]

/-- Continuation of qWitnessTrace used by the C10 witness. -/
def qWitnessMore : List QEv :=
  [QEv.arrive qAnn1, QEv.rcStep]

/-- Outcome of the create-transport signaling round-trip at one resume of
createConsumerTransport: the server callback carried parameters or an error
field (App.js lines 277-281). -/
inductive Outcome
  | ok
  | err
deriving DecidableEq, Repr

/-- Program counter of one in-flight handleNewProducer invocation (App.js
lines 153-174): at entry; suspended inside createConsumerTransport; polling
the creating flag in the while loop (lines 169-171); finished consuming with
the transport handle it used; thrown out of by a createConsumerTransport
rejection; returned early at line 158 because the announcement was the local
user's own. -/
inductive TPc
  | entry
  | inCreate
  | polling
  | consumedWith (handle : Option Nat)
  | thrown
  | skippedSelf
deriving DecidableEq, Repr

/-- Whether a task has reached its consumeStream call. -/
def isConsumedPc : TPc → Bool
  | TPc.consumedWith _ => true
  | _ => false

/-- Shared state of the concurrency model with n in-flight handleNewProducer
invocations: the consumer transport ref, the creating flag, how many
transport constructions were ever started, the log of consumeStream calls
(task index and the transport handle it consumed on), and each task's program
counter. -/
structure AState (n : Nat) where
  consumerTransport : Option Nat
  creatingFlag : Bool
  createdCount : Nat
  consumeCalls : List (Fin n × Option Nat)
  pcs : Fin n → TPc

/-- One scheduler step of the concurrency model: resume task i, with the given
round-trip outcome consulted only when the task is suspended inside
createConsumerTransport. Each case runs App.js from one suspension point to
the next. The guard test and the setting of the creating flag (lines 162-163)
are one synchronous block, hence one atomic step; on a rejection the creating
flag is not cleared, because line 165 is skipped when the await throws.
selfAnn marks the tasks whose announcement carries the local user id. -/
def stepA {n : Nat} (selfAnn : Fin n → Bool) (s : AState n) (e : Fin n × Outcome) :
    AState n :=
  match s.pcs e.1 with
  | TPc.entry =>
    if selfAnn e.1 then { s with pcs := Function.update s.pcs e.1 TPc.skippedSelf }
    else if s.consumerTransport.isNone && !s.creatingFlag then
      { s with creatingFlag := true, createdCount := s.createdCount + 1,
               pcs := Function.update s.pcs e.1 TPc.inCreate }
    else { s with pcs := Function.update s.pcs e.1 TPc.polling }
  | TPc.inCreate =>
    match e.2 with
    | Outcome.ok =>
      { s with consumerTransport := some s.createdCount, creatingFlag := false,
               pcs := Function.update s.pcs e.1 TPc.polling }
    | Outcome.err => { s with pcs := Function.update s.pcs e.1 TPc.thrown }
  | TPc.polling =>
    if s.creatingFlag then s
    else
      { s with consumeCalls := s.consumeCalls ++ [(e.1, s.consumerTransport)],
               pcs := Function.update s.pcs e.1 (TPc.consumedWith s.consumerTransport) }
  | TPc.consumedWith _ => s
  | TPc.thrown => s
  | TPc.skippedSelf => s

/-- Initial state of the concurrency model: no transport, flag clear, every
task at entry. -/
def initA (n : Nat) : AState n :=
  { consumerTransport := none, creatingFlag := false, createdCount := 0,
    consumeCalls := [], pcs := fun _ => TPc.entry }

/-- Running a schedule of the concurrency model. -/
def runA {n : Nat} (selfAnn : Fin n → Bool) (sched : List (Fin n × Outcome)) : AState n :=
  sched.foldl (stepA selfAnn) (initA n)

/-- Whether every task that reached consumeStream used the cached consumer
transport handle, which exists. -/
def allConsumedSame {n : Nat} (s : AState n) : Bool :=
  (List.finRange n).all fun i =>
    match s.pcs i with
    | TPc.consumedWith h => h == s.consumerTransport && s.consumerTransport.isSome
    | _ => true

/-- Whether some task reached consumeStream. -/
def someConsumed {n : Nat} (s : AState n) : Bool :=
  (List.finRange n).any fun i => isConsumedPc (s.pcs i)

/-- Three concurrent remote announcements, none from the local user. -/
def selfAnn3 : Fin 3 → Bool := fun _ => false

/-- A schedule interleaving three remote announcements across the
consumer-transport creation: task 0 wins the guard, tasks 1 and 2 observe the
creation in progress and poll, task 0 completes the creation, then all three
consume. -/
def sched3 : List (Fin 3 × Outcome) :=
  [(0, Outcome.ok), (1, Outcome.ok), (2, Outcome.ok), (1, Outcome.ok),
   (0, Outcome.ok), (1, Outcome.ok), (2, Outcome.ok), (0, Outcome.ok)]

/-- Two concurrent remote announcements for the C2 run. -/
def selfAnn2 : Fin 2 → Bool := fun _ => false

/-- The failing schedule for C2: task 0 starts the consumer-transport
creation, the create-transport round-trip returns an error, and task 1 then
arrives, observes the creating flag still set, and polls without progress. -/
def c2Sched : List (Fin 2 × Outcome) :=
  [(0, Outcome.ok), (0, Outcome.err), (1, Outcome.ok), (1, Outcome.ok), (1, Outcome.ok)]

/-- One announcement from the local user, for the C5 witness. -/
def selfAnn1 : Fin 1 → Bool := fun _ => true

/-- A schedule stepping the single self announcement twice. -/
def c5Sched : List (Fin 1 × Outcome) :=
  [(0, Outcome.ok), (0, Outcome.ok)]

/-- Invariant of the concurrency model: at most one transport construction is
ever started; before the first one the flag is clear, no transport exists and
every task is at entry or skipped; while the flag is set exactly one
construction has started and no transport is cached; the flag being clear
means no task is suspended inside createConsumerTransport; at most one task is
ever inside createConsumerTransport; after the single successful construction
the cached handle is the transport numbered 1; and every task that reached
consumeStream used exactly that cached handle. -/
def InvA {n : Nat} (s : AState n) : Prop :=
  s.createdCount ≤ 1 ∧
  (s.createdCount = 0 →
    s.creatingFlag = false ∧ s.consumerTransport = none ∧
    ∀ i, s.pcs i = TPc.entry ∨ s.pcs i = TPc.skippedSelf) ∧
  (s.creatingFlag = true → s.createdCount = 1 ∧ s.consumerTransport = none) ∧
  (s.creatingFlag = false → ∀ i, s.pcs i ≠ TPc.inCreate) ∧
  (∀ i j, s.pcs i = TPc.inCreate → s.pcs j = TPc.inCreate → i = j) ∧
  (s.createdCount = 1 → s.creatingFlag = false → s.consumerTransport = some 1) ∧
  (∀ i h, s.pcs i = TPc.consumedWith h → h = some 1) ∧
  ((∃ i, isConsumedPc (s.pcs i) = true) → s.consumerTransport = some 1)

/-- Simulation relation for the self-announcement frame property: the run with
the self task present agrees with the run without it on the whole shared state
(transport, flag, construction count, consumeStream calls) and on every other
task's program counter; the self task itself only ever sits at entry or at its
early return, and no consumeStream call is attributed to it. -/
def RelA {n : Nat} (i : Fin n) (s t : AState n) : Prop :=
  s.consumerTransport = t.consumerTransport ∧
  s.creatingFlag = t.creatingFlag ∧
  s.createdCount = t.createdCount ∧
  s.consumeCalls = t.consumeCalls ∧
  (∀ j, j ≠ i → s.pcs j = t.pcs j) ∧
  (s.pcs i = TPc.entry ∨ s.pcs i = TPc.skippedSelf) ∧
  (∀ c ∈ s.consumeCalls, c.1 ≠ i)

/-- Invariant of the queue model once the routerCapabilities handler has
started, relative to the announcements buffered at its start (pre) and the
announcements arrived since (post): the device ref is assigned, the live
invocations are exactly the post arrivals in order, and depending on the
handler's position the pending queue and the drained invocations partition
the pre arrivals. -/
def AInvQ (s : QState) (pre post : List NPAnn) : Prop :=
  s.deviceAssigned = true ∧ liveOf s.handled = post ∧
  (match s.rcPc with
   | RcPc.notStarted => False
   | RcPc.loadingDevice => s.pending = pre ∧ drainedOf s.handled = []
   | RcPc.creatingProducerTransport => s.pending = pre ∧ drainedOf s.handled = []
   | RcPc.draining rest => s.pending = pre ∧ drainedOf s.handled ++ rest = pre
   | RcPc.finished => s.pending = [] ∧ drainedOf s.handled = pre)

/-- C9: handling a peerDisconnected notification removes the user's entry from
the participants map and changes nothing else: the consumers map still holds
that participant's consumers, and producers, transports, device, socket,
flags, credentials, local stream, pending queue and creating flag are
untouched. -/
theorem c9_peer_disconnect_frame (s : AppState) (uid : Nat) :
    (peerDisconnected s uid).participants = eraseKey s.participants uid ∧
    (peerDisconnected s uid).consumers = s.consumers ∧
    (peerDisconnected s uid).producers = s.producers ∧
    (peerDisconnected s uid).producerTransport = s.producerTransport ∧
    (peerDisconnected s uid).consumerTransport = s.consumerTransport ∧
    (peerDisconnected s uid).device = s.device ∧
    (peerDisconnected s uid).socket = s.socket ∧
    (peerDisconnected s uid).isConnected = s.isConnected ∧
    (peerDisconnected s uid).isBroadcasting = s.isBroadcasting ∧
    (peerDisconnected s uid).connectionInfo = s.connectionInfo ∧
    (peerDisconnected s uid).localStream = s.localStream ∧
    (peerDisconnected s uid).pendingProducers = s.pendingProducers ∧
    (peerDisconnected s uid).creatingConsumerTransport = s.creatingConsumerTransport :=
  ⟨rfl, rfl, rfl, rfl, rfl, rfl, rfl, rfl, rfl, rfl, rfl, rfl, rfl⟩

/-- C8 counterexample: on a concrete broadcasting state, disconnect leaves the
producer map nonempty (and the transports open), so it does not perform all
the effects of stopBroadcast as the claim states. -/
theorem c8_counterexample : ¬ c8Claim := by
  intro h
  exact absurd ((h c8CexState rfl).2.2.2.1) (by decide)

/-- C8 amended: disconnect stops the local media tracks, closes and clears the
signaling channel, clears the credentials and the participants map, and moves
the session to Idle, but it does not close either transport and leaves the
producer and consumer maps, the device, the pending queue and the creating
flag exactly as they were. -/
theorem c8_amended (s : AppState) :
    (disconnect s).localStream = s.localStream.map stopTracks ∧
    (disconnect s).socket = none ∧
    (disconnect s).isConnected = false ∧
    (disconnect s).isBroadcasting = false ∧
    (disconnect s).connectionInfo = none ∧
    (disconnect s).participants = [] ∧
    (disconnect s).producers = s.producers ∧
    (disconnect s).consumers = s.consumers ∧
    (disconnect s).producerTransport = s.producerTransport ∧
    (disconnect s).consumerTransport = s.consumerTransport ∧
    (disconnect s).device = s.device ∧
    (disconnect s).pendingProducers = s.pendingProducers ∧
    (disconnect s).creatingConsumerTransport = s.creatingConsumerTransport :=
  ⟨rfl, rfl, rfl, rfl, rfl, rfl, rfl, rfl, rfl, rfl, rfl, rfl, rfl⟩

/-- C7 counterexample: right after the startBroadcast body of a fresh
Connected session — before the routerCapabilities handler can have run — the
state is already marked broadcasting although no device exists, no outbound
transport exists and no producer was published. -/
theorem c7_counterexample : ¬ c7Claim := by
  intro h
  exact absurd ((h 0 0 0 rfl).1) (by decide)

/-- C7 amended: the startBroadcast body sets the broadcasting flag as its last
effect, after acquiring local media and creating the socket but before router
capabilities are processed: it leaves the device, the outbound transport and
the producer map exactly as they were, so from a fresh Connected state the
session is Broadcasting while none of the negotiation side effects have
happened. -/
theorem c7_amended (s : AppState) (streamId socketId : Nat) :
    (startBroadcastBody s streamId socketId).isBroadcasting = true ∧
    (startBroadcastBody s streamId socketId).device = s.device ∧
    (startBroadcastBody s streamId socketId).producerTransport = s.producerTransport ∧
    (startBroadcastBody s streamId socketId).producers = s.producers ∧
    (startBroadcastBody s streamId socketId).consumerTransport = s.consumerTransport ∧
    (startBroadcastBody s streamId socketId).pendingProducers = s.pendingProducers ∧
    (startBroadcastBody s streamId socketId).localStream
      = some { sid := streamId, stopped := false } ∧
    (startBroadcastBody s streamId socketId).socket
      = some { sid := socketId, connected := true } :=
  ⟨rfl, rfl, rfl, rfl, rfl, rfl, rfl, rfl⟩

/-- C6 counterexample: from a concrete broadcasting state with a consumer
transport, stopBroadcast leaves the consumer-transport ref set (to the closed
transport), not at its fresh-Connected value, so the next session does not
start from a clean slate. -/
theorem c6_counterexample : ¬ c6Claim := by
  intro h
  exact absurd ((h c6CexState rfl).2.2.2.2.2.1) (by decide)

/-- C6 amended: stopBroadcast empties the producer map, the consumer map and
the participants map and clears the broadcasting flag, but the device ref, the
transport refs (now pointing at closed transports), the pending queue and the
creating flag keep their previous values; in particular, when a consumer
transport existed, the next session's announcement handler sees the stale ref
and does not create a fresh inbound transport, while a session started from
a fresh Connected state would — so stop-then-start is not observably
equivalent to a single start. -/
theorem c6_amended (s : AppState) :
    (stopBroadcast s).producers = [] ∧
    (stopBroadcast s).consumers = [] ∧
    (stopBroadcast s).participants = [] ∧
    (stopBroadcast s).isBroadcasting = false ∧
    (stopBroadcast s).device = s.device ∧
    (stopBroadcast s).producerTransport = s.producerTransport.map closeTransport ∧
    (stopBroadcast s).consumerTransport = s.consumerTransport.map closeTransport ∧
    (stopBroadcast s).pendingProducers = s.pendingProducers ∧
    (stopBroadcast s).creatingConsumerTransport = s.creatingConsumerTransport ∧
    (s.consumerTransport.isSome = true →
      consumerGuardCreates (stopBroadcast s) = false ∧
      consumerGuardCreates (freshConnected 0) = true) := by
  refine ⟨rfl, rfl, rfl, rfl, rfl, rfl, rfl, rfl, rfl, ?_⟩
  intro h
  cases hc : s.consumerTransport with
  | none => rw [hc] at h; exact absurd h (by decide)
  | some t =>
    constructor
    · simp [consumerGuardCreates, stopBroadcast, hc]
    · decide

/-- C6 witness: the amended statement applied to the concrete broadcasting
state of the counterexample, with the hypothesis discharged. -/
theorem c6_amended_witness :
    consumerGuardCreates (stopBroadcast c6CexState) = false ∧
    consumerGuardCreates (freshConnected 0) = true :=
  (c6_amended c6CexState).2.2.2.2.2.2.2.2.2 (by decide)

/-- C2, evaluated at the failing input: after the create-transport round-trip
of the first inbound announcement reports an error, the creating flag is still
set, no transport is cached, and the next announcement's handler is stuck in
the polling loop having made no progress — the flag does not clear and no
retry from scratch is possible, contrary to the claim. -/
theorem c2_error_leaves_flag_set :
    (runA selfAnn2 c2Sched).creatingFlag = true ∧
    (runA selfAnn2 c2Sched).consumerTransport = none ∧
    (runA selfAnn2 c2Sched).createdCount = 1 ∧
    (runA selfAnn2 c2Sched).pcs 0 = TPc.thrown ∧
    (runA selfAnn2 c2Sched).pcs 1 = TPc.polling ∧
    (runA selfAnn2 c2Sched).consumeCalls = [] := by
  refine ⟨rfl, rfl, rfl, ?_, ?_, rfl⟩ <;> decide

/-- C4 counterexample: after two video announcements from distinct producers
for the same participant, the aggregated stream holds two video tracks — a
duplicate announcement adds a track instead of replacing the previous one. -/
theorem c4_counterexample : ¬ c4Claim := by
  intro h
  exact absurd ((h c4CexAnns).1) (by decide)

theorem getKey_setKey_self {α : Type} (l : List (Nat × α)) (k : Nat) (v : α) :
    getKey (setKey l k v) k = some v := by
  induction l with
  | nil => simp [setKey, getKey]
  | cons p rest ih =>
    by_cases h : p.1 = k
    · simp [setKey, getKey, h]
    · have hb : (p.1 == k) = false := by simp [h]
      simp [setKey, getKey, hb, ih]

theorem getKey_setKey_ne {α : Type} (l : List (Nat × α)) (k k' : Nat) (v : α)
    (hne : k' ≠ k) : getKey (setKey l k v) k' = getKey l k' := by
  induction l with
  | nil =>
    have hb : (k == k') = false := by simp [Ne.symm hne]
    simp [setKey, getKey, hb]
  | cons p rest ih =>
    by_cases h : p.1 = k
    · have hb : (p.1 == k) = true := by simp [h]
      have hb' : (p.1 == k') = false := by simp [h, Ne.symm hne]
      have hb'' : (k == k') = false := by simp [Ne.symm hne]
      simp [setKey, getKey, hb, hb', hb'']
    · have hb : (p.1 == k) = false := by simp [h]
      simp only [setKey, hb]
      by_cases h2 : p.1 = k'
      · simp [getKey, h2]
      · have hb2 : (p.1 == k') = false := by simp [h2]
        simp [getKey, hb2, ih]

theorem annsFor_append (l : List CAnn) (a : CAnn) (uid : Nat) :
    annsFor (l ++ [a]) uid
      = annsFor l uid ++ if a.uid == uid then [a] else [] := by
  by_cases h : a.uid = uid
  · simp [annsFor, List.filter_append, h]
  · have hb : (a.uid == uid) = false := by simp [h]
    simp [annsFor, List.filter_append, hb]

theorem lastProducerOf_append (l : List CAnn) (a : CAnn) (uid : Nat) (k : MKind) :
    lastProducerOf (l ++ [a]) uid k
      = if a.uid == uid && a.kind == k then some a.pid
        else lastProducerOf l uid k := by
  by_cases h : (a.uid == uid && a.kind == k) = true
  · simp [lastProducerOf, List.filter_append, h, List.getLast?_concat]
  · have hb : (a.uid == uid && a.kind == k) = false := Bool.eq_false_iff.mpr h
    simp [lastProducerOf, List.filter_append, hb, h]

theorem lastProducerOf_of_annsFor_nil (l : List CAnn) (uid : Nat) (k : MKind)
    (h : annsFor l uid = []) : lastProducerOf l uid k = none := by
  have hf : l.filter (fun x => x.uid == uid && x.kind == k) = [] := by
    rw [List.filter_eq_nil_iff]
    intro x hx hpx
    have hu : (x.uid == uid) = true := by
      cases hxe : (x.uid == uid) with
      | true => rfl
      | false => rw [hxe] at hpx; simp at hpx
    have : x ∈ annsFor l uid := by
      simp [annsFor, List.mem_filter, hx, hu]
    rw [h] at this
    exact absurd this (List.not_mem_nil x)
  simp [lastProducerOf, hf]

/-- C4 amended: for every sequence of successfully consumed announcements with
fresh consumer track objects, each kind slot of a participant holds the most
recently announced producer id of that kind, but the aggregated stream
accumulates the track of every announcement for that participant in arrival
order — a duplicate announcement for the same kind adds a track and does not
replace the previous one. -/
theorem c4_amended (anns : List CAnn) (hnd : (anns.map (fun a => a.tid)).Nodup)
    (uid : Nat) :
    getKey (applyAnnouncements [] anns) uid = expectedParticipant anns uid := by
  induction anns using List.reverseRecOn generalizing uid with
  | nil => simp [applyAnnouncements, expectedParticipant, annsFor, getKey]
  | append_singleton l a ih =>
    have hmap : (l.map (fun x => x.tid) ++ [a.tid]).Nodup := by simpa using hnd
    have hl : (l.map fun x => x.tid).Nodup := hmap.of_append_left
    have htid : a.tid ∉ l.map (fun x => x.tid) := by
      intro hm
      exact List.disjoint_of_nodup_append hmap hm (by simp)
    have hstep : applyAnnouncements [] (l ++ [a])
        = consumeUpdate (applyAnnouncements [] l) a.uid a.pid a.tid a.kind := by
      simp [applyAnnouncements, List.foldl_append]
    rw [hstep]
    by_cases huid : a.uid = uid
    case neg =>
      have hb : (a.uid == uid) = false := by simp [huid]
      have hget : getKey (consumeUpdate (applyAnnouncements [] l) a.uid a.pid a.tid a.kind) uid
          = getKey (applyAnnouncements [] l) uid := by
        simp only [consumeUpdate]
        exact getKey_setKey_ne _ _ _ _ (fun he => huid he.symm)
      rw [hget, ih hl uid]
      simp [expectedParticipant, annsFor_append, lastProducerOf_append, hb]
    case pos =>
      subst huid
      have hm := ih hl a.uid
      cases hAE : annsFor l a.uid with
      | nil =>
        have hnone : getKey (applyAnnouncements [] l) a.uid = none := by
          rw [hm]; simp [expectedParticipant, hAE]
        have hlpv := lastProducerOf_of_annsFor_nil l a.uid MKind.video hAE
        have hlpa := lastProducerOf_of_annsFor_nil l a.uid MKind.audio hAE
        simp only [consumeUpdate, hnone, Option.getD_none]
        rw [getKey_setKey_self]
        cases hk : a.kind with
        | video =>
          simp [expectedParticipant, annsFor_append, hAE, lastProducerOf_append,
            hlpv, hlpa, hk, addTrack]
        | audio =>
          simp [expectedParticipant, annsFor_append, hAE, lastProducerOf_append,
            hlpv, hlpa, hk, addTrack]
      | cons q qs =>
        have hne : (annsFor l a.uid).isEmpty = false := by rw [hAE]; rfl
        have hsome : getKey (applyAnnouncements [] l) a.uid = some
            { userId := a.uid
              stream := (annsFor l a.uid).map (fun x => { tid := x.tid, kind := x.kind })
              videoProducerId := lastProducerOf l a.uid MKind.video
              audioProducerId := lastProducerOf l a.uid MKind.audio } := by
          rw [hm]; simp [expectedParticipant, hne]
        have hany : ((annsFor l a.uid).map
            (fun x => ({ tid := x.tid, kind := x.kind } : Track))).any
              (fun u => u.tid == a.tid) = false := by
          rw [List.any_eq_false]
          intro u hu hpu
          obtain ⟨x, hx, hxu⟩ := List.mem_map.mp hu
          have hx' : x ∈ l := (List.mem_filter.mp hx).1
          have : u.tid = a.tid := by simpa using hpu
          exact htid (by
            rw [← this, ← hxu]
            exact List.mem_map.mpr ⟨x, hx', rfl⟩)
        have hadd : addTrack
            ((annsFor l a.uid).map (fun x => { tid := x.tid, kind := x.kind }))
            { tid := a.tid, kind := a.kind }
            = (annsFor l a.uid).map (fun x => { tid := x.tid, kind := x.kind })
              ++ [{ tid := a.tid, kind := a.kind }] := by
          simp [addTrack, hany]
        simp only [consumeUpdate, hsome, Option.getD_some]
        rw [getKey_setKey_self]
        cases hk : a.kind with
        | video =>
          rw [hk] at hadd
          simp [expectedParticipant, annsFor_append, hne, lastProducerOf_append,
            hk, hadd]
        | audio =>
          rw [hk] at hadd
          simp [expectedParticipant, annsFor_append, hne, lastProducerOf_append,
            hk, hadd]

/-- C4 witness: the amended statement at the specification's own scenario —
video 10, audio 11, then a replacement video 12 for participant 1 — with the
freshness hypothesis discharged. -/
theorem c4_amended_witness :
    getKey (applyAnnouncements [] c4WitnessAnns) 1 = expectedParticipant c4WitnessAnns 1 :=
  c4_amended c4WitnessAnns (by decide) 1

theorem drainedOf_append (h1 h2 : List (NPAnn × Bool)) :
    drainedOf (h1 ++ h2) = drainedOf h1 ++ drainedOf h2 := by
  simp [drainedOf, List.filter_append]

theorem liveOf_append (h1 h2 : List (NPAnn × Bool)) :
    liveOf (h1 ++ h2) = liveOf h1 ++ liveOf h2 := by
  simp [liveOf, List.filter_append]

theorem arrivalsOf_cons (e : QEv) (t : List QEv) :
    arrivalsOf (e :: t) = arrivalsOf [e] ++ arrivalsOf t := by
  cases e <;> simp [arrivalsOf]

theorem liveOf_append_live (h : List (NPAnn × Bool)) (a : NPAnn) :
    liveOf (h ++ [(a, true)]) = liveOf h ++ [a] := by
  simp [liveOf, List.filter_append]

theorem liveOf_append_drained (h : List (NPAnn × Bool)) (a : NPAnn) :
    liveOf (h ++ [(a, false)]) = liveOf h := by
  simp [liveOf, List.filter_append]

theorem drainedOf_append_live (h : List (NPAnn × Bool)) (a : NPAnn) :
    drainedOf (h ++ [(a, true)]) = drainedOf h := by
  simp [drainedOf, List.filter_append]

theorem drainedOf_append_drained (h : List (NPAnn × Bool)) (a : NPAnn) :
    drainedOf (h ++ [(a, false)]) = drainedOf h ++ [a] := by
  simp [drainedOf, List.filter_append]

theorem AInvQ_step (s : QState) (pre post : List NPAnn) (e : QEv)
    (h : AInvQ s pre post) : AInvQ (stepQ s e) pre (post ++ arrivalsOf [e]) := by
  obtain ⟨hda, hlive, hrest⟩ := h
  cases e with
  | arrive a =>
    have hstep : stepQ s (QEv.arrive a)
        = { s with handled := s.handled ++ [(a, true)] } := by
      simp [stepQ, hda]
    rw [hstep]
    refine ⟨hda, ?_, ?_⟩
    · rw [liveOf_append_live, hlive]; simp [arrivalsOf]
    · show (match s.rcPc with
        | RcPc.notStarted => False
        | RcPc.loadingDevice =>
            s.pending = pre ∧ drainedOf (s.handled ++ [(a, true)]) = []
        | RcPc.creatingProducerTransport =>
            s.pending = pre ∧ drainedOf (s.handled ++ [(a, true)]) = []
        | RcPc.draining rest =>
            s.pending = pre ∧ drainedOf (s.handled ++ [(a, true)]) ++ rest = pre
        | RcPc.finished =>
            s.pending = [] ∧ drainedOf (s.handled ++ [(a, true)]) = pre)
      rw [drainedOf_append_live]
      exact hrest
  | rcStart =>
    cases hpc : s.rcPc with
    | notStarted => rw [hpc] at hrest; exact hrest.elim
    | loadingDevice =>
      have hstep : stepQ s QEv.rcStart = s := by simp [stepQ, hpc]
      rw [hstep]
      exact ⟨hda, by simpa [arrivalsOf] using hlive, hrest⟩
    | creatingProducerTransport =>
      have hstep : stepQ s QEv.rcStart = s := by simp [stepQ, hpc]
      rw [hstep]
      exact ⟨hda, by simpa [arrivalsOf] using hlive, hrest⟩
    | draining rest =>
      have hstep : stepQ s QEv.rcStart = s := by simp [stepQ, hpc]
      rw [hstep]
      exact ⟨hda, by simpa [arrivalsOf] using hlive, hrest⟩
    | finished =>
      have hstep : stepQ s QEv.rcStart = s := by simp [stepQ, hpc]
      rw [hstep]
      exact ⟨hda, by simpa [arrivalsOf] using hlive, hrest⟩
  | rcStep =>
    cases hpc : s.rcPc with
    | notStarted => rw [hpc] at hrest; exact hrest.elim
    | loadingDevice =>
      rw [hpc] at hrest
      obtain ⟨h1, h2⟩ := hrest
      have hstep : stepQ s QEv.rcStep
          = { s with rcPc := RcPc.creatingProducerTransport } := by
        simp [stepQ, hpc]
      rw [hstep]
      exact ⟨hda, by simpa [arrivalsOf] using hlive, ⟨h1, h2⟩⟩
    | creatingProducerTransport =>
      rw [hpc] at hrest
      obtain ⟨h1, h2⟩ := hrest
      by_cases hemp : s.pending.isEmpty = true
      · have hpe : s.pending = [] := by
          cases hl : s.pending with
          | nil => rfl
          | cons x xs => rw [hl] at hemp; simp [List.isEmpty] at hemp
        have hpre : pre = [] := by rw [← h1, hpe]
        have hstep : stepQ s QEv.rcStep = { s with rcPc := RcPc.finished } := by
          simp [stepQ, hpc, hemp]
        rw [hstep]
        refine ⟨hda, by simpa [arrivalsOf] using hlive, ?_⟩
        exact ⟨hpe, by rw [h2, hpre]⟩
      · have hemp' : s.pending.isEmpty = false := Bool.eq_false_iff.mpr hemp
        have hstep : stepQ s QEv.rcStep = { s with rcPc := RcPc.draining s.pending } := by
          simp [stepQ, hpc, hemp']
        rw [hstep]
        refine ⟨hda, by simpa [arrivalsOf] using hlive, ?_⟩
        exact ⟨h1, by rw [h2]; simpa using h1⟩
    | draining rest =>
      rw [hpc] at hrest
      obtain ⟨h1, h2⟩ := hrest
      cases rest with
      | nil =>
        have hstep : stepQ s QEv.rcStep
            = { s with pending := [], rcPc := RcPc.finished } := by
          simp [stepQ, hpc]
        rw [hstep]
        refine ⟨hda, by simpa [arrivalsOf] using hlive, ?_⟩
        exact ⟨rfl, by simpa using h2⟩
      | cons b bs =>
        have hstep : stepQ s QEv.rcStep
            = { s with handled := s.handled ++ [(b, false)],
                       rcPc := RcPc.draining bs } := by
          simp [stepQ, hpc]
        rw [hstep]
        refine ⟨hda, ?_, ?_⟩
        · rw [liveOf_append_drained]; simpa [arrivalsOf] using hlive
        · refine ⟨h1, ?_⟩
          rw [drainedOf_append_drained, List.append_assoc]
          simpa using h2
    | finished =>
      have hstep : stepQ s QEv.rcStep = s := by simp [stepQ, hpc]
      rw [hstep]
      exact ⟨hda, by simpa [arrivalsOf] using hlive, hrest⟩

theorem AInvQ_run (evs : List QEv) :
    ∀ (s : QState) (pre post : List NPAnn), AInvQ s pre post →
      AInvQ (List.foldl stepQ s evs) pre (post ++ arrivalsOf evs) := by
  induction evs with
  | nil => intro s pre post h; simpa [arrivalsOf] using h
  | cons e t ih =>
    intro s pre post h
    have h1 := AInvQ_step s pre post e h
    have h2 := ih (stepQ s e) pre (post ++ arrivalsOf [e]) h1
    rw [arrivalsOf_cons, ← List.append_assoc]
    exact h2

theorem runQ_from_notStarted (evs : List QEv) :
    ∀ pend : List NPAnn,
      (List.foldl stepQ
        { deviceAssigned := false, rcPc := RcPc.notStarted,
          pending := pend, handled := [] } evs).rcPc = RcPc.finished →
      drainedOf (List.foldl stepQ
        { deviceAssigned := false, rcPc := RcPc.notStarted,
          pending := pend, handled := [] } evs).handled = pend ++ preArrivals evs ∧
      liveOf (List.foldl stepQ
        { deviceAssigned := false, rcPc := RcPc.notStarted,
          pending := pend, handled := [] } evs).handled = postArrivals evs ∧
      (List.foldl stepQ
        { deviceAssigned := false, rcPc := RcPc.notStarted,
          pending := pend, handled := [] } evs).pending = [] := by
  induction evs with
  | nil => intro pend h; simp at h
  | cons e t ih =>
    intro pend h
    cases e with
    | arrive a =>
      have hstep : stepQ
          { deviceAssigned := false, rcPc := RcPc.notStarted,
            pending := pend, handled := [] } (QEv.arrive a)
          = { deviceAssigned := false, rcPc := RcPc.notStarted,
              pending := pend ++ [a], handled := [] } := by
        simp [stepQ]
      rw [List.foldl_cons, hstep] at h ⊢
      have := ih (pend ++ [a]) h
      simpa [preArrivals, postArrivals, List.append_assoc] using this
    | rcStep =>
      have hstep : stepQ
          { deviceAssigned := false, rcPc := RcPc.notStarted,
            pending := pend, handled := [] } QEv.rcStep
          = { deviceAssigned := false, rcPc := RcPc.notStarted,
              pending := pend, handled := [] } := by
        simp [stepQ]
      rw [List.foldl_cons, hstep] at h ⊢
      have := ih pend h
      simpa [preArrivals, postArrivals] using this
    | rcStart =>
      have hstep : stepQ
          { deviceAssigned := false, rcPc := RcPc.notStarted,
            pending := pend, handled := [] } QEv.rcStart
          = { deviceAssigned := true, rcPc := RcPc.loadingDevice,
              pending := pend, handled := [] } := by
        simp [stepQ]
      rw [List.foldl_cons, hstep] at h ⊢
      have hinv : AInvQ
          { deviceAssigned := true, rcPc := RcPc.loadingDevice,
            pending := pend, handled := [] } pend [] :=
        ⟨rfl, by simp [liveOf], by simp [drainedOf]⟩
      have hfin := AInvQ_run t _ pend [] hinv
      obtain ⟨hda, hlive, hrest⟩ := hfin
      rw [h] at hrest
      obtain ⟨hp, hd⟩ := hrest
      refine ⟨?_, ?_, hp⟩
      · simp [preArrivals, hd]
      · simpa [postArrivals] using hlive

/-- C3 counterexample: on the concrete trace where announcement qAnn0 is
buffered, the routerCapabilities handler starts and suspends loading the
device, and qAnn1 then arrives, the claim fails — qAnn1 arrives before
capability negotiation completes and yet is handled live at once, and it ends
up handled before the buffered qAnn0. -/
theorem c3_counterexample : ¬ c3Claim := by
  intro h
  exact absurd ((h c3CexTrace).1) (by decide)

/-- C3 amended: every announcement arriving before the routerCapabilities
handler begins (the device ref still unassigned) is buffered, and on every
trace whose handler has finished, the drained invocations are exactly those
buffered arrivals in FIFO order, handled exactly once; but an announcement
arriving after the device ref is assigned — even while the load, the
outbound-transport creation or the drain itself is still in progress — is
handled live at once, and may therefore be handled before the buffered ones. -/
theorem c3_amended (evs : List QEv) (h : (runQ evs).rcPc = RcPc.finished) :
    drainedOf (runQ evs).handled = preArrivals evs ∧
    liveOf (runQ evs).handled = postArrivals evs ∧
    (runQ evs).pending = [] := by
  have H := runQ_from_notStarted evs [] h
  simpa using H

/-- C3 witness: the amended statement on a concrete finished trace with one
buffered and one live announcement, the hypothesis discharged. -/
theorem c3_amended_witness :
    drainedOf (runQ qWitnessTrace).handled = preArrivals qWitnessTrace ∧
    liveOf (runQ qWitnessTrace).handled = postArrivals qWitnessTrace ∧
    (runQ qWitnessTrace).pending = [] :=
  c3_amended qWitnessTrace (by decide)

theorem qInv (evs : List QEv) :
    ((runQ evs).deviceAssigned = false ↔ (runQ evs).rcPc = RcPc.notStarted) ∧
    ((runQ evs).rcPc = RcPc.finished → (runQ evs).pending = []) := by
  suffices H : ∀ (l : List QEv) (s : QState),
      ((s.deviceAssigned = false ↔ s.rcPc = RcPc.notStarted) ∧
        (s.rcPc = RcPc.finished → s.pending = [])) →
      (((List.foldl stepQ s l).deviceAssigned = false
          ↔ (List.foldl stepQ s l).rcPc = RcPc.notStarted) ∧
        ((List.foldl stepQ s l).rcPc = RcPc.finished
          → (List.foldl stepQ s l).pending = [])) by
    exact H evs initQ ⟨by simp [initQ], by simp [initQ]⟩
  intro l
  induction l with
  | nil => intro s h; simpa using h
  | cons e t ih =>
    intro s h
    refine ih (stepQ s e) ?_
    obtain ⟨hiff, hfin⟩ := h
    cases e with
    | arrive a =>
      cases hda : s.deviceAssigned with
      | false =>
        have hpc := hiff.mp hda
        have hstep : stepQ s (QEv.arrive a)
            = { s with pending := s.pending ++ [a] } := by
          simp [stepQ, hda]
        rw [hstep]
        constructor
        · simpa using hiff
        · intro hx
          rw [hpc] at hx
          cases hx
      | true =>
        have hstep : stepQ s (QEv.arrive a)
            = { s with handled := s.handled ++ [(a, true)] } := by
          simp [stepQ, hda]
        rw [hstep]
        constructor
        · constructor
          · intro hx
            rw [hda] at hx
            cases hx
          · intro hx
            have := hiff.mpr hx
            rw [hda] at this
            cases this
        · exact hfin
    | rcStart =>
      cases hpc : s.rcPc with
      | notStarted =>
        constructor
        · simp [stepQ, hpc]
        · simp [stepQ, hpc]
      | loadingDevice =>
        exact ⟨by simpa [stepQ, hpc] using hiff, by simp [stepQ, hpc]⟩
      | creatingProducerTransport =>
        exact ⟨by simpa [stepQ, hpc] using hiff, by simp [stepQ, hpc]⟩
      | draining rest =>
        exact ⟨by simpa [stepQ, hpc] using hiff, by simp [stepQ, hpc]⟩
      | finished =>
        exact ⟨by simpa [stepQ, hpc] using hiff, by simpa [stepQ, hpc] using hfin⟩
    | rcStep =>
      cases hpc : s.rcPc with
      | notStarted =>
        exact ⟨by simpa [stepQ, hpc] using hiff, by simp [stepQ, hpc]⟩
      | loadingDevice =>
        have hda : s.deviceAssigned = true := by
          cases hv : s.deviceAssigned with
          | false => rw [hiff.mp hv] at hpc; cases hpc
          | true => rfl
        constructor
        · simp [stepQ, hpc, hda]
        · simp [stepQ, hpc]
      | creatingProducerTransport =>
        have hda : s.deviceAssigned = true := by
          cases hv : s.deviceAssigned with
          | false => rw [hiff.mp hv] at hpc; cases hpc
          | true => rfl
        by_cases hemp : s.pending.isEmpty
        · have hpe : s.pending = [] := by
            cases hl : s.pending with
            | nil => rfl
            | cons x xs => rw [hl] at hemp; simp [List.isEmpty] at hemp
          constructor
          · simp [stepQ, hpc, hemp, hda]
          · simp [stepQ, hpc, hemp, hpe]
        · have hemp' : s.pending.isEmpty = false := Bool.eq_false_iff.mpr hemp
          constructor
          · simp [stepQ, hpc, hemp', hda]
          · simp [stepQ, hpc, hemp']
      | draining rest =>
        have hda : s.deviceAssigned = true := by
          cases hv : s.deviceAssigned with
          | false => rw [hiff.mp hv] at hpc; cases hpc
          | true => rfl
        cases rest with
        | nil =>
          constructor
          · simp [stepQ, hpc, hda]
          · simp [stepQ, hpc]
        | cons b bs =>
          constructor
          · simp [stepQ, hpc, hda]
          · simp [stepQ, hpc]
      | finished =>
        exact ⟨by simpa [stepQ, hpc] using hiff, by simpa [stepQ, hpc] using hfin⟩

theorem finished_frozen (more : List QEv) :
    ∀ s : QState, s.rcPc = RcPc.finished → s.pending = [] → s.deviceAssigned = true →
      (List.foldl stepQ s more).rcPc = RcPc.finished ∧
      (List.foldl stepQ s more).pending = [] ∧
      drainedOf (List.foldl stepQ s more).handled = drainedOf s.handled ∧
      (List.foldl stepQ s more).deviceAssigned = true := by
  induction more with
  | nil => intro s h1 h2 h3; exact ⟨h1, h2, rfl, h3⟩
  | cons e t ih =>
    intro s h1 h2 h3
    cases e with
    | arrive a =>
      have hstep : stepQ s (QEv.arrive a) = { s with handled := s.handled ++ [(a, true)] } := by
        simp [stepQ, h3]
      rw [List.foldl_cons, hstep]
      have := ih { s with handled := s.handled ++ [(a, true)] } h1 h2 h3
      refine ⟨this.1, this.2.1, ?_, this.2.2.2⟩
      rw [this.2.2.1, drainedOf_append]
      simp [drainedOf]
    | rcStart =>
      have hstep : stepQ s QEv.rcStart = s := by
        simp [stepQ, h1]
      rw [List.foldl_cons, hstep]
      exact ih s h1 h2 h3
    | rcStep =>
      have hstep : stepQ s QEv.rcStep = s := by
        simp [stepQ, h1]
      rw [List.foldl_cons, hstep]
      exact ih s h1 h2 h3

/-- C10: announcements are pushed onto the pending queue only while the device
ref is unassigned, which is only while the routerCapabilities handler has not
begun — in particular before the device is loaded; an arrival after the device
ref is assigned leaves the queue unchanged; and once the handler has finished
its single drain, the queue stays empty over every continuation of the trace
and the drained invocations never grow, so the queue is never drained again. -/
theorem c10_queue_empty_after_drain (evs more : List QEv) (a : NPAnn) :
    ((runQ evs).deviceAssigned = false → (runQ evs).rcPc = RcPc.notStarted) ∧
    ((runQ evs).deviceAssigned = true →
      (stepQ (runQ evs) (QEv.arrive a)).pending = (runQ evs).pending) ∧
    ((runQ evs).rcPc = RcPc.finished →
      (runQ (evs ++ more)).rcPc = RcPc.finished ∧
      (runQ (evs ++ more)).pending = [] ∧
      drainedOf (runQ (evs ++ more)).handled = drainedOf (runQ evs).handled) := by
  refine ⟨fun h => (qInv evs).1.mp h, fun h => by simp [stepQ, h], fun hf => ?_⟩
  have hp := (qInv evs).2 hf
  have hda : (runQ evs).deviceAssigned = true := by
    cases hv : (runQ evs).deviceAssigned with
    | false =>
      have := (qInv evs).1.mp hv
      rw [this] at hf
      cases hf
    | true => rfl
  have hrun : runQ (evs ++ more) = List.foldl stepQ (runQ evs) more := by
    simp [runQ, List.foldl_append]
  have hfr := finished_frozen more (runQ evs) hf hp hda
  rw [hrun]
  exact ⟨hfr.1, hfr.2.1, hfr.2.2.1⟩

/-- C10 witness: on a concrete finished trace, a later arrival leaves the
pending queue unchanged and the queue stays empty over a continuation. -/
theorem c10_witness :
    (stepQ (runQ qWitnessTrace) (QEv.arrive qAnn1)).pending = (runQ qWitnessTrace).pending ∧
    (runQ (qWitnessTrace ++ qWitnessMore)).pending = [] :=
  ⟨(c10_queue_empty_after_drain qWitnessTrace qWitnessMore qAnn1).2.1 (by decide),
   ((c10_queue_empty_after_drain qWitnessTrace qWitnessMore qAnn1).2.2 (by decide)).2.1⟩

theorem InvA_step {n : Nat} (selfAnn : Fin n → Bool) (s : AState n)
    (e : Fin n × Outcome) (h : InvA s) : InvA (stepA selfAnn s e) := by
  obtain ⟨h1, h2, h3, h4, h5, h6, h7, h8⟩ := h
  cases hpc : s.pcs e.1 with
  | entry =>
    cases hself : selfAnn e.1 with
    | true =>
      have hstep : stepA selfAnn s e
          = { s with pcs := Function.update s.pcs e.1 TPc.skippedSelf } := by
        simp [stepA, hpc, hself]
      rw [hstep]
      refine ⟨h1, ?_, h3, ?_, ?_, h6, ?_, ?_⟩
      · intro hc0
        obtain ⟨ha, hb, hcpc⟩ := h2 hc0
        refine ⟨ha, hb, fun i => ?_⟩
        by_cases hik : i = e.1
        · subst hik; right; simp
        · simp only [Function.update_noteq hik]; exact hcpc i
      · intro hcf i
        by_cases hik : i = e.1
        · subst hik; simp
        · simp only [Function.update_noteq hik]; exact h4 hcf i
      · intro i j hi hj
        have hi' : s.pcs i = TPc.inCreate := by
          by_cases hik : i = e.1
          · subst hik; simp only [Function.update_same] at hi; cases hi
          · simp only [Function.update_noteq hik] at hi; exact hi
        have hj' : s.pcs j = TPc.inCreate := by
          by_cases hjk : j = e.1
          · subst hjk; simp only [Function.update_same] at hj; cases hj
          · simp only [Function.update_noteq hjk] at hj; exact hj
        exact h5 i j hi' hj'
      · intro i hdl hi
        by_cases hik : i = e.1
        · subst hik; simp only [Function.update_same] at hi; cases hi
        · simp only [Function.update_noteq hik] at hi; exact h7 i hdl hi
      · rintro ⟨i, hi⟩
        by_cases hik : i = e.1
        · subst hik; simp only [Function.update_same] at hi
          exact absurd hi (by simp [isConsumedPc])
        · simp only [Function.update_noteq hik] at hi; exact h8 ⟨i, hi⟩
    | false =>
      cases hguard : (s.consumerTransport.isNone && !s.creatingFlag) with
      | true =>
        have htr : s.consumerTransport = none := by
          have := (Bool.and_eq_true _ _).mp hguard
          exact Option.isNone_iff_eq_none.mp this.1
        have hcf : s.creatingFlag = false := by
          have := (Bool.and_eq_true _ _).mp hguard
          simpa using this.2
        have hc0 : s.createdCount = 0 := by
          by_contra hne
          have hc1 : s.createdCount = 1 := by omega
          have hx := h6 hc1 hcf
          rw [htr] at hx
          cases hx
        have hstep : stepA selfAnn s e
            = { s with creatingFlag := true, createdCount := s.createdCount + 1,
                       pcs := Function.update s.pcs e.1 TPc.inCreate } := by
          simp [stepA, hpc, hself, hguard]
        rw [hstep]
        refine ⟨by show s.createdCount + 1 ≤ 1; omega, ?_, ?_, ?_, ?_, ?_, ?_, ?_⟩
        · intro hcc
          exact absurd hcc (by show s.createdCount + 1 ≠ 0; omega)
        · intro _
          exact ⟨by show s.createdCount + 1 = 1; omega, htr⟩
        · intro hx; cases hx
        · intro i j hi hj
          by_cases hik : i = e.1
          · by_cases hjk : j = e.1
            · rw [hik, hjk]
            · simp only [Function.update_noteq hjk] at hj
              rcases (h2 hc0).2.2 j with hq | hq <;> rw [hq] at hj <;> cases hj
          · simp only [Function.update_noteq hik] at hi
            rcases (h2 hc0).2.2 i with hq | hq <;> rw [hq] at hi <;> cases hi
        · intro _ hx; cases hx
        · intro i hdl hi
          by_cases hik : i = e.1
          · subst hik; simp only [Function.update_same] at hi; cases hi
          · simp only [Function.update_noteq hik] at hi; exact h7 i hdl hi
        · rintro ⟨i, hi⟩
          by_cases hik : i = e.1
          · subst hik; simp only [Function.update_same] at hi
            exact absurd hi (by simp [isConsumedPc])
          · simp only [Function.update_noteq hik] at hi
            rcases (h2 hc0).2.2 i with hq | hq <;> rw [hq] at hi <;>
              exact absurd hi (by simp [isConsumedPc])
      | false =>
        have hstep : stepA selfAnn s e
            = { s with pcs := Function.update s.pcs e.1 TPc.polling } := by
          simp [stepA, hpc, hself, hguard]
        rw [hstep]
        refine ⟨h1, ?_, h3, ?_, ?_, h6, ?_, ?_⟩
        · intro hc0
          exfalso
          obtain ⟨ha, hb, _⟩ := h2 hc0
          rw [ha, hb] at hguard
          simp at hguard
        · intro hcf i
          by_cases hik : i = e.1
          · subst hik; simp
          · simp only [Function.update_noteq hik]; exact h4 hcf i
        · intro i j hi hj
          have hi' : s.pcs i = TPc.inCreate := by
            by_cases hik : i = e.1
            · subst hik; simp only [Function.update_same] at hi; cases hi
            · simp only [Function.update_noteq hik] at hi; exact hi
          have hj' : s.pcs j = TPc.inCreate := by
            by_cases hjk : j = e.1
            · subst hjk; simp only [Function.update_same] at hj; cases hj
            · simp only [Function.update_noteq hjk] at hj; exact hj
          exact h5 i j hi' hj'
        · intro i hdl hi
          by_cases hik : i = e.1
          · subst hik; simp only [Function.update_same] at hi; cases hi
          · simp only [Function.update_noteq hik] at hi; exact h7 i hdl hi
        · rintro ⟨i, hi⟩
          by_cases hik : i = e.1
          · subst hik; simp only [Function.update_same] at hi
            exact absurd hi (by simp [isConsumedPc])
          · simp only [Function.update_noteq hik] at hi; exact h8 ⟨i, hi⟩
  | inCreate =>
    have hcf : s.creatingFlag = true := by
      cases hv : s.creatingFlag with
      | false => exact absurd hpc (h4 hv e.1)
      | true => rfl
    obtain ⟨hc1, htr⟩ := h3 hcf
    cases hout : e.2 with
    | ok =>
      have hstep : stepA selfAnn s e
          = { s with consumerTransport := some s.createdCount, creatingFlag := false,
                     pcs := Function.update s.pcs e.1 TPc.polling } := by
        simp [stepA, hpc, hout]
      rw [hstep]
      refine ⟨h1, ?_, ?_, ?_, ?_, ?_, ?_, ?_⟩
      · intro hc0
        exact absurd hc0 (by show s.createdCount ≠ 0; omega)
      · intro hx; cases hx
      · intro _ i
        by_cases hik : i = e.1
        · subst hik; simp
        · simp only [Function.update_noteq hik]
          intro hcon
          exact hik (h5 i e.1 hcon hpc)
      · intro i j hi hj
        have hi' : s.pcs i = TPc.inCreate := by
          by_cases hik : i = e.1
          · subst hik; simp only [Function.update_same] at hi; cases hi
          · simp only [Function.update_noteq hik] at hi; exact hi
        have hj' : s.pcs j = TPc.inCreate := by
          by_cases hjk : j = e.1
          · subst hjk; simp only [Function.update_same] at hj; cases hj
          · simp only [Function.update_noteq hjk] at hj; exact hj
        exact h5 i j hi' hj'
      · intro _ _
        show some s.createdCount = some 1
        rw [hc1]
      · intro i hdl hi
        by_cases hik : i = e.1
        · subst hik; simp only [Function.update_same] at hi; cases hi
        · simp only [Function.update_noteq hik] at hi; exact h7 i hdl hi
      · intro _
        show some s.createdCount = some 1
        rw [hc1]
    | err =>
      have hstep : stepA selfAnn s e
          = { s with pcs := Function.update s.pcs e.1 TPc.thrown } := by
        simp [stepA, hpc, hout]
      rw [hstep]
      refine ⟨h1, ?_, h3, ?_, ?_, h6, ?_, ?_⟩
      · intro hc0
        exact absurd hc0 (by show s.createdCount ≠ 0; omega)
      · intro hx
        have hx2 : s.creatingFlag = false := hx
        rw [hcf] at hx2
        cases hx2
      · intro i j hi hj
        have hi' : s.pcs i = TPc.inCreate := by
          by_cases hik : i = e.1
          · subst hik; simp only [Function.update_same] at hi; cases hi
          · simp only [Function.update_noteq hik] at hi; exact hi
        have hj' : s.pcs j = TPc.inCreate := by
          by_cases hjk : j = e.1
          · subst hjk; simp only [Function.update_same] at hj; cases hj
          · simp only [Function.update_noteq hjk] at hj; exact hj
        exact h5 i j hi' hj'
      · intro i hdl hi
        by_cases hik : i = e.1
        · subst hik; simp only [Function.update_same] at hi; cases hi
        · simp only [Function.update_noteq hik] at hi; exact h7 i hdl hi
      · rintro ⟨i, hi⟩
        by_cases hik : i = e.1
        · subst hik; simp only [Function.update_same] at hi
          exact absurd hi (by simp [isConsumedPc])
        · simp only [Function.update_noteq hik] at hi; exact h8 ⟨i, hi⟩
  | polling =>
    cases hv : s.creatingFlag with
    | true =>
      have hstep : stepA selfAnn s e = s := by simp [stepA, hpc, hv]
      rw [hstep]
      exact ⟨h1, h2, h3, h4, h5, h6, h7, h8⟩
    | false =>
      have hcne : s.createdCount ≠ 0 := by
        intro hc0
        rcases (h2 hc0).2.2 e.1 with hq | hq <;> rw [hq] at hpc <;> cases hpc
      have hc1 : s.createdCount = 1 := by omega
      have htr : s.consumerTransport = some 1 := h6 hc1 hv
      have hstep : stepA selfAnn s e
          = { s with consumeCalls := s.consumeCalls ++ [(e.1, s.consumerTransport)],
                     pcs := Function.update s.pcs e.1
                       (TPc.consumedWith s.consumerTransport) } := by
        simp [stepA, hpc, hv]
      rw [hstep]
      refine ⟨h1, ?_, h3, ?_, ?_, h6, ?_, ?_⟩
      · intro hc0; exact absurd hc0 hcne
      · intro hcf i
        by_cases hik : i = e.1
        · subst hik; simp
        · simp only [Function.update_noteq hik]; exact h4 hcf i
      · intro i j hi hj
        have hi' : s.pcs i = TPc.inCreate := by
          by_cases hik : i = e.1
          · subst hik; simp only [Function.update_same] at hi; cases hi
          · simp only [Function.update_noteq hik] at hi; exact hi
        have hj' : s.pcs j = TPc.inCreate := by
          by_cases hjk : j = e.1
          · subst hjk; simp only [Function.update_same] at hj; cases hj
          · simp only [Function.update_noteq hjk] at hj; exact hj
        exact h5 i j hi' hj'
      · intro i hdl hi
        by_cases hik : i = e.1
        · subst hik; simp only [Function.update_same] at hi
          injection hi with hx
          rw [← hx]; exact htr
        · simp only [Function.update_noteq hik] at hi; exact h7 i hdl hi
      · intro _; exact htr
  | consumedWith hdl =>
    have hstep : stepA selfAnn s e = s := by simp [stepA, hpc]
    rw [hstep]
    exact ⟨h1, h2, h3, h4, h5, h6, h7, h8⟩
  | thrown =>
    have hstep : stepA selfAnn s e = s := by simp [stepA, hpc]
    rw [hstep]
    exact ⟨h1, h2, h3, h4, h5, h6, h7, h8⟩
  | skippedSelf =>
    have hstep : stepA selfAnn s e = s := by simp [stepA, hpc]
    rw [hstep]
    exact ⟨h1, h2, h3, h4, h5, h6, h7, h8⟩

theorem InvA_init (n : Nat) : InvA (initA n) := by
  refine ⟨Nat.zero_le 1, ?_, ?_, ?_, ?_, ?_, ?_, ?_⟩
  · intro _; exact ⟨rfl, rfl, fun _ => Or.inl rfl⟩
  · intro hx; cases hx
  · intro _ i hcon; cases hcon
  · intro i j hi _; cases hi
  · intro hc1; cases hc1
  · intro i hdl hi; cases hi
  · rintro ⟨i, hi⟩; cases hi

theorem InvA_run {n : Nat} (selfAnn : Fin n → Bool) (sched : List (Fin n × Outcome)) :
    InvA (runA selfAnn sched) := by
  suffices H : ∀ (l : List (Fin n × Outcome)) (s : AState n),
      InvA s → InvA (List.foldl (stepA selfAnn) s l) by
    exact H sched (initA n) (InvA_init n)
  intro l
  induction l with
  | nil => intro s hs; simpa using hs
  | cons e t ih => intro s hs; exact ih _ (InvA_step selfAnn s e hs)

/-- C1: over every interleaving of concurrently handled remote-producer
announcements starting with no inbound transport, at most one consumer
transport construction is ever started; every handler that reaches its
consumeStream call uses the one cached transport handle, which exists; and if
any handler completed, exactly one transport was constructed. -/
theorem c1_inbound_transport_unique {n : Nat} (selfAnn : Fin n → Bool)
    (sched : List (Fin n × Outcome)) :
    (runA selfAnn sched).createdCount ≤ 1 ∧
    allConsumedSame (runA selfAnn sched) = true ∧
    (someConsumed (runA selfAnn sched) = true →
      (runA selfAnn sched).createdCount = 1) := by
  obtain ⟨h1, h2, h3, h4, h5, h6, h7, h8⟩ := InvA_run selfAnn sched
  refine ⟨h1, ?_, ?_⟩
  · simp only [allConsumedSame, List.all_eq_true]
    intro i _
    cases hp : (runA selfAnn sched).pcs i with
    | consumedWith hdl =>
      have h9 := h7 i hdl hp
      have h10 := h8 ⟨i, by rw [hp]; rfl⟩
      rw [h9, h10]
      rfl
    | entry => rfl
    | inCreate => rfl
    | polling => rfl
    | thrown => rfl
    | skippedSelf => rfl
  · intro hsome
    rw [someConsumed, List.any_eq_true] at hsome
    obtain ⟨i, _, hi⟩ := hsome
    have h10 := h8 ⟨i, hi⟩
    by_contra hne
    have hc0 : (runA selfAnn sched).createdCount = 0 := by omega
    have hb := (h2 hc0).2.1
    rw [hb] at h10
    cases h10

/-- C1 witness: the specification's scenario of three remote announcements in
one scheduling turn — exactly one construction happens and every handler ends
consuming on the cached handle. -/
theorem c1_witness :
    (runA selfAnn3 sched3).createdCount = 1 ∧
    allConsumedSame (runA selfAnn3 sched3) = true :=
  ⟨(c1_inbound_transport_unique selfAnn3 sched3).2.2 (by decide),
   (c1_inbound_transport_unique selfAnn3 sched3).2.1⟩

theorem RelA_step_self {n : Nat} (selfAnn : Fin n → Bool) (i : Fin n)
    (hself : selfAnn i = true) (s t : AState n) (hrel : RelA i s t)
    (e : Fin n × Outcome) (hei : e.1 = i) :
    RelA i (stepA selfAnn s e) t := by
  subst hei
  obtain ⟨r1, r2, r3, r4, r5, r6, r7⟩ := hrel
  rcases r6 with hp | hp
  · have hstep : stepA selfAnn s e
        = { s with pcs := Function.update s.pcs e.1 TPc.skippedSelf } := by
      simp [stepA, hp, hself]
    rw [hstep]
    refine ⟨r1, r2, r3, r4, fun j hj => ?_, ?_, r7⟩
    · simp only [Function.update_noteq hj]; exact r5 j hj
    · right
      simp only [Function.update_same]
  · have hstep : stepA selfAnn s e = s := by simp [stepA, hp]
    rw [hstep]
    exact ⟨r1, r2, r3, r4, r5, Or.inr hp, r7⟩

theorem RelA_step_other {n : Nat} (selfAnn : Fin n → Bool) (i : Fin n)
    (s t : AState n) (hrel : RelA i s t) (e : Fin n × Outcome) (hne : e.1 ≠ i) :
    RelA i (stepA selfAnn s e) (stepA selfAnn t e) := by
  obtain ⟨r1, r2, r3, r4, r5, r6, r7⟩ := hrel
  have hpe : t.pcs e.1 = s.pcs e.1 := (r5 e.1 hne).symm
  cases hpc : s.pcs e.1 with
  | entry =>
    rw [hpc] at hpe
    cases hself : selfAnn e.1 with
    | true =>
      have hs : stepA selfAnn s e
          = { s with pcs := Function.update s.pcs e.1 TPc.skippedSelf } := by
        simp [stepA, hpc, hself]
      have ht : stepA selfAnn t e
          = { t with pcs := Function.update t.pcs e.1 TPc.skippedSelf } := by
        simp [stepA, hpe, hself]
      rw [hs, ht]
      refine ⟨r1, r2, r3, r4, fun j hj => ?_, ?_, r7⟩
      · by_cases hje : j = e.1
        · subst hje; simp only [Function.update_same]
        · simp only [Function.update_noteq hje]; exact r5 j hj
      · simp only [Function.update_noteq (Ne.symm hne)]; exact r6
    | false =>
      cases hguard : (s.consumerTransport.isNone && !s.creatingFlag) with
      | true =>
        have hg2 : (t.consumerTransport.isNone && !t.creatingFlag) = true := by
          rw [← r1, ← r2]; exact hguard
        have hs : stepA selfAnn s e
            = { s with creatingFlag := true, createdCount := s.createdCount + 1,
                       pcs := Function.update s.pcs e.1 TPc.inCreate } := by
          simp [stepA, hpc, hself, hguard]
        have ht : stepA selfAnn t e
            = { t with creatingFlag := true, createdCount := t.createdCount + 1,
                       pcs := Function.update t.pcs e.1 TPc.inCreate } := by
          simp [stepA, hpe, hself, hg2]
        rw [hs, ht]
        refine ⟨r1, rfl, ?_, r4, fun j hj => ?_, ?_, r7⟩
        · show s.createdCount + 1 = t.createdCount + 1
          rw [r3]
        · by_cases hje : j = e.1
          · subst hje; simp only [Function.update_same]
          · simp only [Function.update_noteq hje]; exact r5 j hj
        · simp only [Function.update_noteq (Ne.symm hne)]; exact r6
      | false =>
        have hg2 : (t.consumerTransport.isNone && !t.creatingFlag) = false := by
          rw [← r1, ← r2]; exact hguard
        have hs : stepA selfAnn s e
            = { s with pcs := Function.update s.pcs e.1 TPc.polling } := by
          simp [stepA, hpc, hself, hguard]
        have ht : stepA selfAnn t e
            = { t with pcs := Function.update t.pcs e.1 TPc.polling } := by
          simp [stepA, hpe, hself, hg2]
        rw [hs, ht]
        refine ⟨r1, r2, r3, r4, fun j hj => ?_, ?_, r7⟩
        · by_cases hje : j = e.1
          · subst hje; simp only [Function.update_same]
          · simp only [Function.update_noteq hje]; exact r5 j hj
        · simp only [Function.update_noteq (Ne.symm hne)]; exact r6
  | inCreate =>
    rw [hpc] at hpe
    cases hout : e.2 with
    | ok =>
      have hs : stepA selfAnn s e
          = { s with consumerTransport := some s.createdCount, creatingFlag := false,
                     pcs := Function.update s.pcs e.1 TPc.polling } := by
        simp [stepA, hpc, hout]
      have ht : stepA selfAnn t e
          = { t with consumerTransport := some t.createdCount, creatingFlag := false,
                     pcs := Function.update t.pcs e.1 TPc.polling } := by
        simp [stepA, hpe, hout]
      rw [hs, ht]
      refine ⟨?_, rfl, r3, r4, fun j hj => ?_, ?_, r7⟩
      · show some s.createdCount = some t.createdCount
        rw [r3]
      · by_cases hje : j = e.1
        · subst hje; simp only [Function.update_same]
        · simp only [Function.update_noteq hje]; exact r5 j hj
      · simp only [Function.update_noteq (Ne.symm hne)]; exact r6
    | err =>
      have hs : stepA selfAnn s e
          = { s with pcs := Function.update s.pcs e.1 TPc.thrown } := by
        simp [stepA, hpc, hout]
      have ht : stepA selfAnn t e
          = { t with pcs := Function.update t.pcs e.1 TPc.thrown } := by
        simp [stepA, hpe, hout]
      rw [hs, ht]
      refine ⟨r1, r2, r3, r4, fun j hj => ?_, ?_, r7⟩
      · by_cases hje : j = e.1
        · subst hje; simp only [Function.update_same]
        · simp only [Function.update_noteq hje]; exact r5 j hj
      · simp only [Function.update_noteq (Ne.symm hne)]; exact r6
  | polling =>
    rw [hpc] at hpe
    cases hv : s.creatingFlag with
    | true =>
      have hv2 : t.creatingFlag = true := by rw [← r2]; exact hv
      have hs : stepA selfAnn s e = s := by simp [stepA, hpc, hv]
      have ht : stepA selfAnn t e = t := by simp [stepA, hpe, hv2]
      rw [hs, ht]
      exact ⟨r1, r2, r3, r4, r5, Or.elim r6 Or.inl Or.inr, r7⟩
    | false =>
      have hv2 : t.creatingFlag = false := by rw [← r2]; exact hv
      have hs : stepA selfAnn s e
          = { s with consumeCalls := s.consumeCalls ++ [(e.1, s.consumerTransport)],
                     pcs := Function.update s.pcs e.1
                       (TPc.consumedWith s.consumerTransport) } := by
        simp [stepA, hpc, hv]
      have ht : stepA selfAnn t e
          = { t with consumeCalls := t.consumeCalls ++ [(e.1, t.consumerTransport)],
                     pcs := Function.update t.pcs e.1
                       (TPc.consumedWith t.consumerTransport) } := by
        simp [stepA, hpe, hv2]
      rw [hs, ht]
      refine ⟨r1, r2, r3, ?_, fun j hj => ?_, ?_, ?_⟩
      · show s.consumeCalls ++ [(e.1, s.consumerTransport)]
          = t.consumeCalls ++ [(e.1, t.consumerTransport)]
        rw [r4, r1]
      · by_cases hje : j = e.1
        · subst hje; simp only [Function.update_same, r1]
        · simp only [Function.update_noteq hje]; exact r5 j hj
      · simp only [Function.update_noteq (Ne.symm hne)]; exact r6
      · intro c hc
        have hc2 : c ∈ s.consumeCalls ++ [(e.1, s.consumerTransport)] := hc
        rcases List.mem_append.mp hc2 with hc1 | hc1
        · exact r7 c hc1
        · have hceq : c = (e.1, s.consumerTransport) := List.mem_singleton.mp hc1
          rw [hceq]
          exact hne
  | consumedWith hdl =>
    rw [hpc] at hpe
    have hs : stepA selfAnn s e = s := by simp [stepA, hpc]
    have ht : stepA selfAnn t e = t := by simp [stepA, hpe]
    rw [hs, ht]
    exact ⟨r1, r2, r3, r4, r5, Or.elim r6 Or.inl Or.inr, r7⟩
  | thrown =>
    rw [hpc] at hpe
    have hs : stepA selfAnn s e = s := by simp [stepA, hpc]
    have ht : stepA selfAnn t e = t := by simp [stepA, hpe]
    rw [hs, ht]
    exact ⟨r1, r2, r3, r4, r5, Or.elim r6 Or.inl Or.inr, r7⟩
  | skippedSelf =>
    rw [hpc] at hpe
    have hs : stepA selfAnn s e = s := by simp [stepA, hpc]
    have ht : stepA selfAnn t e = t := by simp [stepA, hpe]
    rw [hs, ht]
    exact ⟨r1, r2, r3, r4, r5, Or.elim r6 Or.inl Or.inr, r7⟩

theorem RelA_run {n : Nat} (selfAnn : Fin n → Bool) (i : Fin n)
    (hself : selfAnn i = true) :
    ∀ (sched : List (Fin n × Outcome)) (s t : AState n), RelA i s t →
      RelA i (List.foldl (stepA selfAnn) s sched)
        (List.foldl (stepA selfAnn) t (sched.filter (fun e => e.1 != i))) := by
  intro sched
  induction sched with
  | nil => intro s t h; simpa using h
  | cons e rest ih =>
    intro s t h
    by_cases hei : e.1 = i
    · have hf : (e.1 != i) = false := by simp [hei]
      have hfe : (e :: rest).filter (fun e => e.1 != i)
          = rest.filter (fun e => e.1 != i) := by
        simp [List.filter_cons, hf]
      rw [hfe, List.foldl_cons]
      exact ih _ t (RelA_step_self selfAnn i hself s t h e hei)
    · have hf : (e.1 != i) = true := by simp [hei]
      have hfe : (e :: rest).filter (fun e => e.1 != i)
          = e :: rest.filter (fun e => e.1 != i) := by
        simp [List.filter_cons, hf]
      rw [hfe, List.foldl_cons, List.foldl_cons]
      exact ih _ _ (RelA_step_other selfAnn i s t h e hei)

/-- C5: a remote-producer announcement whose participant id equals the local
user id has no effect: the run with the self announcement present agrees with
the run without it on the consumer transport ref, the creating flag, the
number of transport constructions and the list of consumeStream calls (through
which alone Participant entries and Consumers are created), and no
consumeStream call is ever attributed to the self announcement — whether its
handler was invoked live or from the pending-queue drain, both of which run
the same handleNewProducer. -/
theorem c5_self_announcement_no_effect {n : Nat} (selfAnn : Fin n → Bool)
    (sched : List (Fin n × Outcome)) (i : Fin n) (hself : selfAnn i = true) :
    (runA selfAnn sched).consumerTransport
      = (runA selfAnn (sched.filter (fun e => e.1 != i))).consumerTransport ∧
    (runA selfAnn sched).creatingFlag
      = (runA selfAnn (sched.filter (fun e => e.1 != i))).creatingFlag ∧
    (runA selfAnn sched).createdCount
      = (runA selfAnn (sched.filter (fun e => e.1 != i))).createdCount ∧
    (runA selfAnn sched).consumeCalls
      = (runA selfAnn (sched.filter (fun e => e.1 != i))).consumeCalls ∧
    (∀ c ∈ (runA selfAnn sched).consumeCalls, c.1 ≠ i) := by
  have H := RelA_run selfAnn i hself sched (initA n) (initA n)
    ⟨rfl, rfl, rfl, rfl, fun _ _ => rfl, Or.inl rfl,
     fun c hc => absurd hc (List.not_mem_nil c)⟩
  exact ⟨H.1, H.2.1, H.2.2.1, H.2.2.2.1, H.2.2.2.2.2.2⟩

/-- C5 witness: one self announcement stepped twice constructs nothing and
never reaches consumeStream. -/
theorem c5_witness :
    (runA selfAnn1 c5Sched).consumerTransport
      = (runA selfAnn1 (c5Sched.filter (fun e => e.1 != (0 : Fin 1)))).consumerTransport ∧
    (∀ c ∈ (runA selfAnn1 c5Sched).consumeCalls, c.1 ≠ (0 : Fin 1)) :=
  ⟨(c5_self_announcement_no_effect selfAnn1 c5Sched 0 rfl).1,
   (c5_self_announcement_no_effect selfAnn1 c5Sched 0 rfl).2.2.2.2⟩

end TurnFront
